import Mathlib

/-!
Verification of the Polymarket CLOB client core (`src/rust/src`): the EIP-712
order-signing pipeline (`actions/orders.rs`), the trade-history position
reconciler (`actions/trading.rs`), credential guards (`actions/*.rs`) and the
paginated trade fetch (`client.rs`).

Modelling conventions:
* bytes are `Nat` (each value < 256 by construction); byte strings are
  `List Nat`; keccak256 is an arbitrary function `List Nat → List Nat`
  passed as a parameter, since every claim is about the byte layout fed to
  the hash, never about keccak internals;
* Rust `f64` arithmetic on decimal inputs is modelled exactly over `ℚ`
  (the claims are about the algebraic formulas and control flow, not about
  binary floating-point rounding); the `as u64` cast of a non-negative
  value is truncation toward zero, i.e. `Int.toNat ∘ Int.floor`;
* network effects are modelled by oracle functions stored in the client
  value, and each modelled operation additionally returns the list of
  network calls (or signing-backend calls) it issued, in order.
-/

namespace Polymarket

/-- A 32-byte hash function over byte strings (stands for keccak256). -/
abbrev Hash : Type := List Nat → List Nat

/-- Big-endian encoding of `n` on `w` bytes (`U256::to_be_bytes::<32>` is
`beBytes 32`). -/
def beBytes (w n : Nat) : List Nat :=
  (List.range w).map (fun i => n / 256 ^ (w - 1 - i) % 256)

/-- The UTF-8/ASCII bytes of a string literal (all strings used here are
ASCII, so code points are bytes). -/
def strBytes (s : String) : List Nat :=
  s.toList.map Char.toNat

/-- Value of one hexadecimal digit. -/
def hexVal (c : Char) : Nat :=
  if '0' ≤ c ∧ c ≤ '9' then c.toNat - '0'.toNat
  else if 'a' ≤ c ∧ c ≤ 'f' then c.toNat - 'a'.toNat + 10
  else if 'A' ≤ c ∧ c ≤ 'F' then c.toNat - 'A'.toNat + 10
  else 0

/-- Decode a list of hex digits, two digits per byte. -/
def hexPairs : List Char → List Nat
  | a :: b :: rest => (hexVal a * 16 + hexVal b) :: hexPairs rest
  | _ => []

/-- Decode a `0x`-prefixed hex string into bytes (how an `Address` parses
from its string constant). -/
def hexToBytes (s : String) : List Nat :=
  hexPairs (s.toList.drop 2)

/-- Left-zero-pad a byte string to 32 bytes: zeros occupy the high (leading)
bytes, the content the low (trailing) bytes. -/
def leftPad32 (l : List Nat) : List Nat :=
  List.replicate (32 - l.length) 0 ++ l

-- Constants from `constants.rs` and `actions/orders.rs`.

/-- Constant `POLYGON_CHAIN_ID` from `constants.rs`. -/
def POLYGON_CHAIN_ID : Nat := 137

/-- Constant `CTF_EXCHANGE_ADDRESS` from `constants.rs`. -/
def CTF_EXCHANGE_ADDRESS : String := "0x4bFb41d5B3570DeFd03C39a9A4D8dE6Bd8B8982E"

/-- Constant `NEG_RISK_CTF_EXCHANGE_ADDRESS` from `constants.rs`. -/
def NEG_RISK_CTF_EXCHANGE_ADDRESS : String := "0xC5d563A36AE78145C45a50134d48A1215220f80a"

/-- Constant `END_CURSOR` from `constants.rs`. -/
def END_CURSOR : String := "LTE="

/-- Constant `DOMAIN_NAME` from `actions/orders.rs`. -/
def DOMAIN_NAME : String := "Polymarket CTF Exchange"

/-- Constant `DOMAIN_VERSION` from `actions/orders.rs`. -/
def DOMAIN_VERSION : String := "1"

/-- Constant `SIGNATURE_TYPE_EOA` from `actions/orders.rs`. -/
def SIGNATURE_TYPE_EOA : Nat := 0

/-- The ASCII schema string hashed by `order_type_hash`. -/
def ORDER_SCHEMA : String :=
  "Order(uint256 salt,address maker,address signer,address taker,uint256 tokenId,uint256 makerAmount,uint256 takerAmount,uint256 expiration,uint256 nonce,uint256 feeRateBps,uint8 side,uint8 signatureType)"

/-- The ASCII schema string hashed by `domain_type_hash`. -/
def DOMAIN_SCHEMA : String :=
  "EIP712Domain(string name,string version,uint256 chainId,address verifyingContract)"

/-- Function `order_type_hash` from `actions/orders.rs`. -/
def order_type_hash (keccak : Hash) : List Nat :=
  keccak (strBytes ORDER_SCHEMA)

/-- Function `domain_type_hash` from `actions/orders.rs`. -/
def domain_type_hash (keccak : Hash) : List Nat :=
  keccak (strBytes DOMAIN_SCHEMA)

/-- Method `OrderBuilder::exchange_address`: the neg-risk exchange when the
caller-supplied `neg_risk` flag is true, the standard exchange otherwise. -/
def exchange_address (negRisk : Bool) : List Nat :=
  if negRisk then hexToBytes NEG_RISK_CTF_EXCHANGE_ADDRESS
  else hexToBytes CTF_EXCHANGE_ADDRESS

/-- Method `OrderBuilder::domain_separator`:
keccak( domainTypeHash ‖ keccak(name) ‖ keccak(version) ‖ be32(chainId) ‖
verifyingContract ). -/
def domain_separator (keccak : Hash) (negRisk : Bool) : List Nat :=
  keccak (domain_type_hash keccak ++ keccak (strBytes DOMAIN_NAME)
    ++ keccak (strBytes DOMAIN_VERSION) ++ beBytes 32 POLYGON_CHAIN_ID
    ++ exchange_address negRisk)

/-- The `OrderData` struct from `actions/orders.rs`: integers as `Nat`
(`U256` values), addresses as 20-byte lists, the two enum-like fields as
single bytes. -/
structure OrderData where
  salt : Nat
  maker : List Nat
  signer : List Nat
  taker : List Nat
  tokenId : Nat
  makerAmount : Nat
  takerAmount : Nat
  expiration : Nat
  nonce : Nat
  feeRateBps : Nat
  side : Nat
  signatureType : Nat

/-- The byte string assembled by `OrderBuilder::struct_hash` before hashing:
type hash, then each field, addresses padded with 12 leading zero bytes and
the two `u8` fields padded with 31 leading zero bytes. -/
def struct_encoding (keccak : Hash) (o : OrderData) : List Nat :=
  order_type_hash keccak
    ++ beBytes 32 o.salt
    ++ (List.replicate 12 0 ++ o.maker)
    ++ (List.replicate 12 0 ++ o.signer)
    ++ (List.replicate 12 0 ++ o.taker)
    ++ beBytes 32 o.tokenId
    ++ beBytes 32 o.makerAmount
    ++ beBytes 32 o.takerAmount
    ++ beBytes 32 o.expiration
    ++ beBytes 32 o.nonce
    ++ beBytes 32 o.feeRateBps
    ++ (List.replicate 31 0 ++ [o.side])
    ++ (List.replicate 31 0 ++ [o.signatureType])

/-- Method `OrderBuilder::struct_hash`. -/
def struct_hash (keccak : Hash) (o : OrderData) : List Nat :=
  keccak (struct_encoding keccak o)

/-- Method `OrderBuilder::eip712_hash`:
keccak( 0x19 ‖ 0x01 ‖ domainSeparator ‖ structHash ). -/
def eip712_hash (keccak : Hash) (negRisk : Bool) (o : OrderData) : List Nat :=
  keccak (0x19 :: 0x01 :: (domain_separator keccak negRisk ++ struct_hash keccak o))

-- Order parameters, amount conversion and order placement
-- (`actions/orders.rs`, `types.rs`).

/-- Type `OrderSide` from `types.rs`. -/
inductive OrderSide where
  | buy
  | sell
deriving DecidableEq, Repr

/-- Type `OrderParams` from `types.rs`. `price` and `size` are the decimal
values (held exactly in `ℚ`); `tokenId` is the result of parsing the
token-id string as a `U256` (`none` = unparsable). -/
structure OrderParams where
  tokenId : Option Nat
  side : OrderSide
  price : ℚ
  size : ℚ
  feeRateBps : Nat
  expiration : Option Nat
  nonce : Option Nat

/-- Rust's `expr as u64` on a non-negative finite `f64` value: truncation
toward zero (negative values clamp to 0, which `Int.toNat` also does). -/
def asU64 (q : ℚ) : Nat :=
  (⌊q⌋).toNat

/-- The `(maker_amount, taker_amount)` computation inside
`create_and_sign_order`: BUY pays `price*size*10^6` collateral units for
`size*10^6` outcome-token units; SELL is the mirror image.  The Rust code
does this arithmetic in `f64`; it is modelled exactly over `ℚ`. -/
def order_amounts (side : OrderSide) (price size : ℚ) : Nat × Nat :=
  match side with
  | .buy => (asU64 (price * size * 1000000), asU64 (size * 1000000))
  | .sell => (asU64 (size * 1000000), asU64 (price * size * 1000000))

/-- The byte encoding of `side` inside `create_and_sign_order`:
0 = BUY, 1 = SELL. -/
def side_byte : OrderSide → Nat
  | .buy => 0
  | .sell => 1

/-- The error taxonomy of `error.rs` (message payload kept). -/
inductive PolymarketError where
  | invalidOrder (msg : String)
  | invalidToken (msg : String)
  | configError (msg : String)
  | apiError (msg : String)
  | authError (msg : String)
  | networkError (msg : String)
deriving DecidableEq, Repr

/-- The signing context of an `OrderBuilder`: the signer's address, whether
the private key parsed (`PrivateKeySigner` construction succeeds), and the
signing backend, a function from 32-byte digests to signature bytes. -/
structure SignerCtx where
  address : List Nat
  keyValid : Bool
  sign : List Nat → List Nat

/-- The `OrderData` value assembled by `create_and_sign_order` from the
resolved parameters: maker = signer = the builder's address, taker = the
zero address, `signature_type` = EOA. -/
def order_data_of (ctx : SignerCtx) (salt tokenId : Nat) (p : OrderParams)
    (expiration nonce : Nat) : OrderData :=
  let amounts := order_amounts p.side p.price p.size
  { salt := salt
    maker := ctx.address
    signer := ctx.address
    taker := List.replicate 20 0
    tokenId := tokenId
    makerAmount := amounts.1
    takerAmount := amounts.2
    expiration := expiration
    nonce := nonce
    feeRateBps := p.feeRateBps
    side := side_byte p.side
    signatureType := SIGNATURE_TYPE_EOA }

/-- Type `SignedOrder` from `actions/orders.rs`: every numeric field stringified
to decimal text, signature hex-encoded by the caller (we keep signature
bytes). -/
structure SignedOrder where
  salt : String
  maker : List Nat
  signer : List Nat
  taker : List Nat
  tokenId : String
  makerAmount : String
  takerAmount : String
  expiration : String
  nonce : String
  feeRateBps : String
  side : String
  signatureType : Nat
  signature : List Nat
deriving DecidableEq

/-- Method `OrderBuilder::create_and_sign_order`.  `saltR`/`nonceR` are the two
`rand_salt()` draws, `now` the current Unix time.  Besides the result it
returns the list of digests passed to the signing backend, in order. -/
def create_and_sign_order (keccak : Hash) (ctx : SignerCtx) (negRisk : Bool)
    (saltR nonceR now : Nat) (p : OrderParams) :
    Except PolymarketError (SignedOrder × List (List Nat)) :=
  match p.tokenId with
  | none => .error (.invalidToken "Invalid token ID format")
  | some tid =>
    let expiration := p.expiration.getD (now + 30 * 24 * 60 * 60)
    let nonce := p.nonce.getD nonceR
    let od := order_data_of ctx saltR tid p expiration nonce
    let digest := eip712_hash keccak negRisk od
    .ok ({ salt := Nat.repr od.salt
           maker := od.maker
           signer := od.signer
           taker := od.taker
           tokenId := Nat.repr od.tokenId
           makerAmount := Nat.repr od.makerAmount
           takerAmount := Nat.repr od.takerAmount
           expiration := Nat.repr od.expiration
           nonce := Nat.repr od.nonce
           feeRateBps := Nat.repr od.feeRateBps
           side := Nat.repr od.side
           signatureType := SIGNATURE_TYPE_EOA
           signature := ctx.sign digest }, [digest])

/-- Observable effects of `place_order`, in order of occurrence. -/
inductive Step where
  | constructSigner
  | signDigest (digest : List Nat)
  | postOrder
deriving DecidableEq

/-- Function `place_order` from `actions/orders.rs`: validate price and size, then
construct the `OrderBuilder`, sign, and submit.  Returns the result of the
phase it reached paired with the trace of effects after validation
(`[]` when validation rejects: no signer constructed, nothing signed). -/
def place_order (keccak : Hash) (ctx : SignerCtx) (negRisk : Bool)
    (saltR nonceR now : Nat) (p : OrderParams) :
    Except PolymarketError SignedOrder × List Step :=
  if p.price ≤ 0 ∨ 1 < p.price then
    (.error (.invalidOrder "Price must be between 0 and 1"), [])
  else if p.size ≤ 0 then
    (.error (.invalidOrder "Size must be positive"), [])
  else if ¬ ctx.keyValid then
    (.error (.configError "Invalid private key"), [Step.constructSigner])
  else
    match create_and_sign_order keccak ctx negRisk saltR nonceR now p with
    | .error e => (.error e, [Step.constructSigner])
    | .ok (so, digests) =>
      (.ok so, Step.constructSigner :: digests.map Step.signDigest ++ [Step.postOrder])

-- Trade records, paginated trade fetch (`client.rs::get_trades`) and
-- position reconciliation (`actions/trading.rs::get_positions`).

/-- A trade record from the trade-history feed (`TradeEntry` in
`types.rs`).  `price` and `size` carry the result of
`String::parse::<f64>` on the wire field: `none` when the text is not a
parsable number. -/
structure Trade where
  tokenId : String
  marketId : String
  side : OrderSide
  price : Option ℚ
  size : Option ℚ

/-- Rust `x.parse::<f64>().unwrap_or(0.0)`: an unparsable field degrades to 0. -/
def parseOr0 (o : Option ℚ) : ℚ :=
  o.getD 0

/-- Type `TradesResponse` from `types.rs`. -/
structure TradesResponse where
  data : List Trade
  nextCursor : String

/-- Outcome of one HTTP page request inside `get_trades`: transport
failure, non-success HTTP status, JSON that fails to parse, or a parsed
page. -/
inductive PageResult where
  | netFail
  | httpFail
  | parseFail
  | ok (page : TradesResponse)

/-- The pagination loop of `ClobClient::get_trades`.  `http n` is the
outcome of the `n`-th request overall, `idx` the index of the next
request, `fuel` the remaining loop budget (`max_pages - page`).  Returns
the result together with the number of requests the loop issued.  The
loop stops without a request when the accumulated cursor is empty or the
`END_CURSOR` sentinel; a non-success status on a later page breaks the
loop, returning what was accumulated so far without error. -/
def get_trades_loop (http : Nat → PageResult) :
    Nat → TradesResponse → Nat → Except PolymarketError TradesResponse × Nat
  | _, acc, 0 => (.ok acc, 0)
  | idx, acc, fuel + 1 =>
    if acc.nextCursor = "" ∨ acc.nextCursor = END_CURSOR then (.ok acc, 0)
    else
      match http idx with
      | .netFail => (.error (.networkError "Failed to fetch trades page"), 1)
      | .httpFail => (.ok acc, 1)
      | .parseFail => (.error (.apiError "Failed to parse trades page"), 1)
      | .ok page =>
        let acc2 : TradesResponse :=
          { data := acc.data ++ page.data, nextCursor := page.nextCursor }
        let rest := get_trades_loop http (idx + 1) acc2 fuel
        (rest.1, rest.2 + 1)

/-- Method `ClobClient::get_trades`: one unconditional first request, then the
pagination loop, which runs while `page < max_pages` starting from
`page = 1` (so at most `max_pages - 1` further requests).  `maxPages`
defaults to 1 when unspecified.  Returns the result and the total number
of page requests issued. -/
def get_trades (http : Nat → PageResult) (maxPages : Option Nat) :
    Except PolymarketError TradesResponse × Nat :=
  match http 0 with
  | .netFail => (.error (.networkError "Failed to fetch trades"), 1)
  | .httpFail => (.error (.apiError "API returned error"), 1)
  | .parseFail => (.error (.apiError "Failed to parse trades response"), 1)
  | .ok first =>
    let m := maxPages.getD 1
    let rest := get_trades_loop http 1 first (m - 1)
    (rest.1, rest.2 + 1)

/-- Type `PositionAccumulator` from `actions/trading.rs`. -/
structure Acc where
  market : String
  assetId : String
  totalBought : ℚ
  totalSold : ℚ
  totalCost : ℚ
  totalProceeds : ℚ

/-- The fresh accumulator installed by `or_insert_with` on first sight of
an instrument. -/
def Acc.init (t : Trade) : Acc :=
  { market := t.marketId
    assetId := t.tokenId
    totalBought := 0
    totalSold := 0
    totalCost := 0
    totalProceeds := 0 }

/-- One trade folded into its accumulator: buys raise `totalBought` and
`totalCost`, sells raise `totalSold` and `totalProceeds`. -/
def Acc.apply (a : Acc) (t : Trade) : Acc :=
  let price := parseOr0 t.price
  let size := parseOr0 t.size
  match t.side with
  | .buy => { a with totalBought := a.totalBought + size,
                     totalCost := a.totalCost + price * size }
  | .sell => { a with totalSold := a.totalSold + size,
                      totalProceeds := a.totalProceeds + price * size }

/-- The accumulator map, as an association list keyed by token id in
first-seen order (the Rust `HashMap` iterates in an unspecified order;
every claim here is order-insensitive). -/
abbrev AccMap : Type := List (String × Acc)

/-- Rust `position_map.entry(..).or_insert_with(..)` followed by the per-trade
update: modify the entry in place, or append a fresh one. -/
def foldTrade (m : AccMap) (t : Trade) : AccMap :=
  match m with
  | [] => [(t.tokenId, (Acc.init t).apply t)]
  | (k, a) :: rest =>
    if k = t.tokenId then (k, a.apply t) :: rest
    else (k, a) :: foldTrade rest t

/-- The whole accumulation pass over the trade list. -/
def foldTrades (trades : List Trade) : AccMap :=
  trades.foldl foldTrade []

/-- A produced `Position` (numeric fields kept as exact values; the Rust
code formats them to fixed-point strings on output). -/
structure Position where
  market : String
  assetId : String
  size : ℚ
  averagePrice : ℚ
  realizedPnl : ℚ
  unrealizedPnl : ℚ
deriving DecidableEq, Repr

/-- The midpoint oracle: `none` means the `get_midpoint` call failed;
`some s` is the returned string's parse result (`some (some q)` parsed,
`some none` unparsable). -/
abbrev MidOracle : Type := String → Option (Option ℚ)

/-- Conversion of one accumulator to an emitted position, from the second
loop of `get_positions`: skip when `|netSize| < 0.0001`; average price
from buys only; `realized = proceeds - sold * avg`; unrealized only when
prices were requested and the net position is long, 0 when the oracle
call fails. -/
def accToPosition (mid : MidOracle) (includePrices : Bool)
    (assetId : String) (a : Acc) : Option Position :=
  let netSize := a.totalBought - a.totalSold
  if |netSize| < 1 / 10000 then none
  else
    let avg := if 0 < a.totalBought then a.totalCost / a.totalBought else 0
    let realized := a.totalProceeds - a.totalSold * avg
    let unrealized :=
      if includePrices ∧ 0 < netSize then
        match mid assetId with
        | some s => (parseOr0 s - avg) * netSize
        | none => 0
      else 0
    some { market := a.market
           assetId := assetId
           size := netSize
           averagePrice := avg
           realizedPnl := realized
           unrealizedPnl := unrealized }

/-- The emission loop of `get_positions` over the accumulator map. -/
def emitPositions (mid : MidOracle) (includePrices : Bool) (m : AccMap) :
    List Position :=
  m.filterMap (fun e => accToPosition mid includePrices e.1 e.2)

/-- The pure core of `get_positions`: reconcile a trade list into
positions. -/
def reconcile (mid : MidOracle) (includePrices : Bool)
    (trades : List Trade) : List Position :=
  emitPositions mid includePrices (foldTrades trades)

-- The client and the credential-guarded operations
-- (`client.rs`, `actions/trading.rs`, `actions/orders.rs`,
-- `actions/api_keys.rs`).

/-- A network request issued by a client operation. -/
inductive NetCall where
  | fetchTradesPage (idx : Nat)
  | fetchMidpoint (assetId : String)
  | fetchCollateral
  | fetchConditional (tokenId : String)
  | cancelOrder (orderId : String)
  | checkScoring
  | listApiKeys
  | revokeKey (keyId : String)
deriving DecidableEq

/-- Type `ClobClient`: whether API credentials are attached, plus oracle
functions giving the outcome each remote endpoint would return if
called. -/
structure ClobClient where
  hasCredentials : Bool
  http : Nat → PageResult
  mid : MidOracle
  collateral : Except PolymarketError ℚ
  conditional : String → Except PolymarketError ℚ
  cancelResult : Except PolymarketError Bool
  scoringResult : Except PolymarketError (List (String × Bool))
  apiKeysResult : Except PolymarketError (List String)
  revokeResult : Except PolymarketError Bool

/-- The trade-page requests recorded for `n` issued page fetches. -/
def tradeCalls (n : Nat) : List NetCall :=
  (List.range n).map NetCall.fetchTradesPage

/-- The midpoint requests `get_positions` issues: one per emitted long
position, only when prices were requested (flat and short accumulators
are skipped before the oracle is consulted). -/
def midCalls (includePrices : Bool) (m : AccMap) : List NetCall :=
  m.filterMap (fun e =>
    let netSize := e.2.totalBought - e.2.totalSold
    if |netSize| < 1 / 10000 then none
    else if includePrices ∧ 0 < netSize then some (NetCall.fetchMidpoint e.1)
    else none)

/-- Function `get_positions` from `actions/trading.rs`: credential guard, trade
fetch, accumulation, emission.  Returns the result and the network calls
issued. -/
def get_positions (c : ClobClient) (maxPages : Option Nat)
    (includePrices : Bool) :
    Except PolymarketError (List Position) × List NetCall :=
  if ¬ c.hasCredentials then
    (.error (.authError "API credentials required for position queries"), [])
  else
    match get_trades c.http maxPages with
    | (.error e, n) => (.error e, tradeCalls n)
    | (.ok trades, n) =>
      let m := foldTrades trades.data
      (.ok (emitPositions c.mid includePrices m),
        tradeCalls n ++ midCalls includePrices m)

/-- Function `get_trade_history` from `actions/trading.rs`. -/
def get_trade_history (c : ClobClient) (maxPages : Option Nat) :
    Except PolymarketError TradesResponse × List NetCall :=
  if ¬ c.hasCredentials then
    (.error (.authError "API credentials required for trade history"), [])
  else
    let r := get_trades c.http maxPages
    (r.1, tradeCalls r.2)

/-- Function `get_balances` from `actions/trading.rs`: collateral errors propagate,
per-token conditional errors are logged and skipped. -/
def get_balances (c : ClobClient) (tokenIds : Option (List String))
    (includeCollateral includeConditional : Bool) :
    Except PolymarketError (Option ℚ × List (String × ℚ)) × List NetCall :=
  if ¬ c.hasCredentials then
    (.error (.authError "API credentials required for balance queries"), [])
  else
    match (if includeCollateral then some c.collateral else none) with
    | some (.error e) => (.error e, [NetCall.fetchCollateral])
    | res =>
      let coll := match res with
        | some (.ok b) => some b
        | _ => none
      let collCalls := if includeCollateral then [NetCall.fetchCollateral] else []
      let tokens := if includeConditional then tokenIds.getD [] else []
      let conds := tokens.filterMap (fun tid =>
        match c.conditional tid with
        | .ok b => some (tid, b)
        | .error _ => none)
      (.ok (coll, conds), collCalls ++ tokens.map NetCall.fetchConditional)

/-- Function `cancel_order` from `actions/orders.rs`. -/
def cancel_order (c : ClobClient) (orderId : String) :
    Except PolymarketError Bool × List NetCall :=
  if ¬ c.hasCredentials then
    (.error (.authError "API credentials required to cancel orders"), [])
  else
    (c.cancelResult, [NetCall.cancelOrder orderId])

/-- Function `check_order_scoring` from `actions/trading.rs`. -/
def check_order_scoring (c : ClobClient) :
    Except PolymarketError (List (String × Bool)) × List NetCall :=
  if ¬ c.hasCredentials then
    (.error (.authError "API credentials required for order scoring check"), [])
  else
    (c.scoringResult, [NetCall.checkScoring])

/-- Function `get_all_api_keys` from `actions/api_keys.rs`. -/
def get_all_api_keys (c : ClobClient) :
    Except PolymarketError (List String) × List NetCall :=
  if ¬ c.hasCredentials then
    (.error (.authError "API credentials required to list API keys"), [])
  else
    (c.apiKeysResult, [NetCall.listApiKeys])

/-- Function `revoke_api_key` from `actions/api_keys.rs`. -/
def revoke_api_key (c : ClobClient) (keyId : String) :
    Except PolymarketError Bool × List NetCall :=
  if ¬ c.hasCredentials then
    (.error (.authError "API credentials required to revoke API keys"), [])
  else
    (c.revokeResult, [NetCall.revokeKey keyId])

-- Spec-side definitions (from the spec's words, for comparison with the
-- source-derived encodings) and concrete test fixtures.

/-- From the spec: the 32-byte word of an 8-bit enum-like field — the low
(last) byte holds the value, the remaining 31 bytes are zero.  Expressed
with the same left-padding combinator as addresses: the zeros occupy the
high bytes in both cases, so the directions agree. -/
def enumWord (v : Nat) : List Nat :=
  leftPad32 [v]

/-- From the spec: an address field is left-zero-padded from 20 to 32
bytes. -/
def addressWord (a : List Nat) : List Nat :=
  leftPad32 a

/-- From the spec: the struct-hash preimage is the type hash followed by
the twelve order fields in declared order, integers big-endian on 32
bytes, addresses left-padded, enum bytes in the low byte of a zero
word. -/
def spec_struct_encoding (keccak : Hash) (o : OrderData) : List Nat :=
  order_type_hash keccak
    ++ beBytes 32 o.salt
    ++ addressWord o.maker
    ++ addressWord o.signer
    ++ addressWord o.taker
    ++ beBytes 32 o.tokenId
    ++ beBytes 32 o.makerAmount
    ++ beBytes 32 o.takerAmount
    ++ beBytes 32 o.expiration
    ++ beBytes 32 o.nonce
    ++ beBytes 32 o.feeRateBps
    ++ enumWord o.side
    ++ enumWord o.signatureType

/-- A stand-in hash function for concrete instantiations. -/
def testKeccak : Hash :=
  fun l => List.replicate 32 (l.length % 256)

/-- A concrete signer context. -/
def testCtx : SignerCtx :=
  { address := List.replicate 20 7, keyValid := true, sign := fun l => 27 :: l }

/-- Concrete BUY parameters: price 0.45, size 100. -/
def testBuyParams : OrderParams :=
  { tokenId := some 5, side := .buy, price := 9 / 20, size := 100
    feeRateBps := 0, expiration := some 1000, nonce := some 2 }

/-- Concrete SELL parameters: price 0.45, size 100. -/
def testSellParams : OrderParams :=
  { tokenId := some 5, side := .sell, price := 9 / 20, size := 100
    feeRateBps := 0, expiration := some 1000, nonce := some 2 }

/-- A concrete order record with well-formed 20-byte addresses. -/
def testOrderData : OrderData :=
  { salt := 1, maker := List.replicate 20 7, signer := List.replicate 20 7
    taker := List.replicate 20 0, tokenId := 5, makerAmount := 45000000
    takerAmount := 100000000, expiration := 1000, nonce := 2
    feeRateBps := 0, side := 0, signatureType := 0 }

-- Helper lemmas.

theorem leftPad32_of_len20 (a : List Nat) (h : a.length = 20) :
    leftPad32 a = List.replicate 12 0 ++ a := by
  simp [leftPad32, h]

theorem leftPad32_single (v : Nat) :
    leftPad32 [v] = List.replicate 31 0 ++ [v] := by
  simp [leftPad32]

-- C1: the signed digest.

/-- C1. Claim: For every order, the signed digest equals
keccak256(0x19 ‖ 0x01 ‖ domainSeparator ‖ structHash), where
domainSeparator = keccak256(domainTypeHash ‖ keccak(name) ‖
keccak(version) ‖ be32(chainId) ‖ verifyingContract), the verifying
contract being the standard exchange address when `negRisk` is false and
the negative-risk exchange address when it is true; and this digest is
the only value ever passed to the signing backend (`digests` is the
singleton of it, and the emitted signature is the backend applied to
it). -/
theorem signed_digest_correct (keccak : Hash) (ctx : SignerCtx) (negRisk : Bool)
    (saltR nonceR now : Nat) (p : OrderParams) (tid : Nat)
    (h : p.tokenId = some tid) :
    ∃ so digests,
      create_and_sign_order keccak ctx negRisk saltR nonceR now p
          = .ok (so, digests) ∧
      digests = [eip712_hash keccak negRisk
        (order_data_of ctx saltR tid p
          (p.expiration.getD (now + 30 * 24 * 60 * 60)) (p.nonce.getD nonceR))] ∧
      so.signature = ctx.sign (eip712_hash keccak negRisk
        (order_data_of ctx saltR tid p
          (p.expiration.getD (now + 30 * 24 * 60 * 60)) (p.nonce.getD nonceR))) ∧
      (∀ o : OrderData,
        eip712_hash keccak negRisk o
          = keccak ([0x19, 0x01] ++ (domain_separator keccak negRisk
              ++ struct_hash keccak o))) ∧
      domain_separator keccak negRisk
        = keccak (domain_type_hash keccak ++ keccak (strBytes DOMAIN_NAME)
            ++ keccak (strBytes DOMAIN_VERSION) ++ beBytes 32 POLYGON_CHAIN_ID
            ++ (if negRisk then hexToBytes NEG_RISK_CTF_EXCHANGE_ADDRESS
                else hexToBytes CTF_EXCHANGE_ADDRESS)) := by
  unfold create_and_sign_order
  rw [h]
  exact ⟨_, _, rfl, rfl, rfl, fun o => rfl, rfl⟩

/-- Closed instantiation of `signed_digest_correct` at concrete inputs. -/
theorem signed_digest_correct_witness :
    ∃ so digests,
      create_and_sign_order testKeccak testCtx true 1 2 3 testBuyParams
          = .ok (so, digests) ∧
      digests = [eip712_hash testKeccak true
        (order_data_of testCtx 1 5 testBuyParams
          (testBuyParams.expiration.getD (3 + 30 * 24 * 60 * 60))
          (testBuyParams.nonce.getD 2))] ∧
      so.signature = testCtx.sign (eip712_hash testKeccak true
        (order_data_of testCtx 1 5 testBuyParams
          (testBuyParams.expiration.getD (3 + 30 * 24 * 60 * 60))
          (testBuyParams.nonce.getD 2))) ∧
      (∀ o : OrderData,
        eip712_hash testKeccak true o
          = testKeccak ([0x19, 0x01] ++ (domain_separator testKeccak true
              ++ struct_hash testKeccak o))) ∧
      domain_separator testKeccak true
        = testKeccak (domain_type_hash testKeccak
            ++ testKeccak (strBytes DOMAIN_NAME)
            ++ testKeccak (strBytes DOMAIN_VERSION)
            ++ beBytes 32 POLYGON_CHAIN_ID
            ++ (if true then hexToBytes NEG_RISK_CTF_EXCHANGE_ADDRESS
                else hexToBytes CTF_EXCHANGE_ADDRESS)) :=
  signed_digest_correct testKeccak testCtx true 1 2 3 testBuyParams 5 rfl

-- C2: field padding inside the struct hash.

/-- C2. Claim: In the order struct hash, each 8-bit enum-like field (side,
signatureType) is encoded as a 32-byte word whose low (last) byte holds
the value and whose 31 remaining bytes are zero; the address fields are
left-zero-padded from 20 to 32 bytes; the enum padding is the same
direction as — not the reverse of — the address padding (both are
`leftPad32`, zeros in the high bytes; the right-padded word differs);
and all twelve fields appear in declared order after the type hash. -/
theorem struct_encoding_padding (keccak : Hash) (o : OrderData)
    (hm : o.maker.length = 20) (hs : o.signer.length = 20)
    (ht : o.taker.length = 20) :
    struct_encoding keccak o = spec_struct_encoding keccak o ∧
    (∀ v : Nat, enumWord v = List.replicate 31 0 ++ [v]) ∧
    (∀ a : List Nat, a.length = 20 →
      addressWord a = List.replicate 12 0 ++ a) ∧
    enumWord 1 ≠ [1] ++ List.replicate 31 0 := by
  refine ⟨?_, fun v => leftPad32_single v, fun a ha => leftPad32_of_len20 a ha, ?_⟩
  · simp [struct_encoding, spec_struct_encoding, addressWord, enumWord,
      leftPad32_of_len20 _ hm, leftPad32_of_len20 _ hs, leftPad32_of_len20 _ ht,
      leftPad32_single]
  · decide

/-- Closed instantiation of `struct_encoding_padding` at a concrete
order. -/
theorem struct_encoding_padding_witness :
    struct_encoding testKeccak testOrderData
        = spec_struct_encoding testKeccak testOrderData ∧
    (∀ v : Nat, enumWord v = List.replicate 31 0 ++ [v]) ∧
    (∀ a : List Nat, a.length = 20 →
      addressWord a = List.replicate 12 0 ++ a) ∧
    enumWord 1 ≠ [1] ++ List.replicate 31 0 :=
  struct_encoding_padding testKeccak testOrderData (by decide) (by decide)
    (by decide)

-- C3: base-unit amount conversion.

/-- C3. Claim: Base-unit amounts come from fixed-point scaling by 10^6: a BUY
has makerAmount = price·size·10^6 and takerAmount = size·10^6, a SELL the
mirror image, each truncated toward zero (`asU64 q` is the unique natural
with `asU64 q ≤ q < asU64 q + 1` for nonnegative `q`); concretely a BUY
with price 0.45 and size 100 is signed with makerAmount "45000000" and
takerAmount "100000000", and the same SELL with makerAmount "100000000"
and takerAmount "45000000". -/
theorem order_amounts_correct :
    (∀ price size : ℚ,
      order_amounts .buy price size
          = (asU64 (price * size * 1000000), asU64 (size * 1000000)) ∧
      order_amounts .sell price size
          = (asU64 (size * 1000000), asU64 (price * size * 1000000))) ∧
    (∀ q : ℚ, 0 ≤ q → (asU64 q : ℚ) ≤ q ∧ q < asU64 q + 1) ∧
    (∃ so ds,
      create_and_sign_order testKeccak testCtx false 1 2 3 testBuyParams
          = .ok (so, ds) ∧
      so.makerAmount = "45000000" ∧ so.takerAmount = "100000000") ∧
    (∃ so ds,
      create_and_sign_order testKeccak testCtx false 1 2 3 testSellParams
          = .ok (so, ds) ∧
      so.makerAmount = "100000000" ∧ so.takerAmount = "45000000") := by
  have hbuy : asU64 (testBuyParams.price * testBuyParams.size * 1000000)
      = 45000000 := by
    unfold asU64 testBuyParams
    norm_num
    rfl
  have hsize : asU64 (testBuyParams.size * 1000000) = 100000000 := by
    unfold asU64 testBuyParams
    norm_num
    rfl
  have hbuy2 : asU64 (testSellParams.price * testSellParams.size * 1000000)
      = 45000000 := by
    unfold asU64 testSellParams
    norm_num
    rfl
  have hsize2 : asU64 (testSellParams.size * 1000000) = 100000000 := by
    unfold asU64 testSellParams
    norm_num
    rfl
  refine ⟨fun price size => ⟨rfl, rfl⟩, ?_, ?_, ?_⟩
  · intro q hq
    have h0 : (0 : ℤ) ≤ ⌊q⌋ := Int.floor_nonneg.mpr hq
    have hcast : ((asU64 q : ℕ) : ℚ) = ((⌊q⌋ : ℤ) : ℚ) := by
      unfold asU64
      exact_mod_cast Int.toNat_of_nonneg h0
    constructor
    · rw [hcast]
      exact Int.floor_le q
    · calc q < ⌊q⌋ + 1 := Int.lt_floor_add_one q
        _ = (asU64 q : ℚ) + 1 := by rw [hcast]
  · refine ⟨_, _, rfl, ?_, ?_⟩
    · show Nat.repr (asU64 (testBuyParams.price * testBuyParams.size * 1000000))
          = "45000000"
      rw [hbuy]
      rfl
    · show Nat.repr (asU64 (testBuyParams.size * 1000000)) = "100000000"
      rw [hsize]
      rfl
  · refine ⟨_, _, rfl, ?_, ?_⟩
    · show Nat.repr (asU64 (testSellParams.size * 1000000)) = "100000000"
      rw [hsize2]
      rfl
    · show Nat.repr (asU64 (testSellParams.price * testSellParams.size * 1000000))
          = "45000000"
      rw [hbuy2]
      rfl

/-- Closed instantiation of the truncation clause of
`order_amounts_correct` at a concrete rational. -/
theorem order_amounts_correct_witness :
    (asU64 (9 / 2 : ℚ) : ℚ) ≤ 9 / 2 ∧ (9 / 2 : ℚ) < asU64 (9 / 2 : ℚ) + 1 :=
  order_amounts_correct.2.1 (9 / 2) (by norm_num)

-- C6: validation happens before any cryptography.

/-- Parameters with price 0. -/
def priceZeroParams : OrderParams :=
  { tokenId := some 5, side := .buy, price := 0, size := 100
    feeRateBps := 0, expiration := some 1000, nonce := some 2 }

/-- Parameters with price 1.5. -/
def priceHighParams : OrderParams :=
  { tokenId := some 5, side := .buy, price := 3 / 2, size := 100
    feeRateBps := 0, expiration := some 1000, nonce := some 2 }

/-- Parameters with size 0. -/
def sizeZeroParams : OrderParams :=
  { tokenId := some 5, side := .buy, price := 1 / 2, size := 0
    feeRateBps := 0, expiration := some 1000, nonce := some 2 }

/-- C6. Claim: If the price is outside (0, 1] or the size is not strictly
positive, `place_order` fails with `InvalidOrder` and its effect trace is
empty: no signer is constructed and nothing is signed. -/
theorem place_order_validates_first (keccak : Hash) (ctx : SignerCtx)
    (negRisk : Bool) (saltR nonceR now : Nat) (p : OrderParams)
    (h : p.price ≤ 0 ∨ 1 < p.price ∨ p.size ≤ 0) :
    (∃ msg, (place_order keccak ctx negRisk saltR nonceR now p).1
        = .error (.invalidOrder msg)) ∧
    (place_order keccak ctx negRisk saltR nonceR now p).2 = [] := by
  by_cases hp : p.price ≤ 0 ∨ 1 < p.price
  · rw [place_order, if_pos hp]
    exact ⟨⟨_, rfl⟩, rfl⟩
  · have hs : p.size ≤ 0 := by tauto
    rw [place_order, if_neg hp, if_pos hs]
    exact ⟨⟨_, rfl⟩, rfl⟩

/-- Closed instantiations of `place_order_validates_first` at price 0,
price 1.5 and size 0. -/
theorem place_order_validates_first_witness :
    ((∃ msg, (place_order testKeccak testCtx false 1 2 3 priceZeroParams).1
        = .error (.invalidOrder msg)) ∧
      (place_order testKeccak testCtx false 1 2 3 priceZeroParams).2 = []) ∧
    ((∃ msg, (place_order testKeccak testCtx false 1 2 3 priceHighParams).1
        = .error (.invalidOrder msg)) ∧
      (place_order testKeccak testCtx false 1 2 3 priceHighParams).2 = []) ∧
    ((∃ msg, (place_order testKeccak testCtx false 1 2 3 sizeZeroParams).1
        = .error (.invalidOrder msg)) ∧
      (place_order testKeccak testCtx false 1 2 3 sizeZeroParams).2 = []) :=
  ⟨place_order_validates_first testKeccak testCtx false 1 2 3 priceZeroParams
      (Or.inl (by norm_num [priceZeroParams])),
    place_order_validates_first testKeccak testCtx false 1 2 3 priceHighParams
      (Or.inr (Or.inl (by norm_num [priceHighParams]))),
    place_order_validates_first testKeccak testCtx false 1 2 3 sizeZeroParams
      (Or.inr (Or.inr (by norm_num [sizeZeroParams])))⟩

-- C4: the reconciliation fold and the PnL formulas.

/-- The trade `buy 10 @ 0.40` on instrument `"T"`. -/
def tradeBuy1 : Trade :=
  { tokenId := "T", marketId := "M", side := .buy
    price := some (4 / 10), size := some 10 }

/-- The trade `buy 10 @ 0.60` on instrument `"T"`. -/
def tradeBuy2 : Trade :=
  { tokenId := "T", marketId := "M", side := .buy
    price := some (6 / 10), size := some 10 }

/-- The trade `sell 15 @ 0.70` on instrument `"T"`. -/
def tradeSell1 : Trade :=
  { tokenId := "T", marketId := "M", side := .sell
    price := some (7 / 10), size := some 15 }

/-- A midpoint oracle whose every call fails. -/
def noMid : MidOracle := fun _ => none

theorem foldTrade_lookup_self (m : AccMap) (t : Trade) :
    (foldTrade m t).lookup t.tokenId
      = some (((m.lookup t.tokenId).getD (Acc.init t)).apply t) := by
  induction m with
  | nil => simp [foldTrade, List.lookup]
  | cons e rest ih =>
    rcases e with ⟨k, a⟩
    by_cases hk : k = t.tokenId
    · subst hk
      simp [foldTrade, List.lookup]
    · have hb : (t.tokenId == k) = false := beq_eq_false_iff_ne.mpr (Ne.symm hk)
      simp [foldTrade, List.lookup, hk, hb, ih]

theorem foldTrade_lookup_other (m : AccMap) (t : Trade) (k : String)
    (hk : k ≠ t.tokenId) :
    (foldTrade m t).lookup k = m.lookup k := by
  have hb : (k == t.tokenId) = false := beq_eq_false_iff_ne.mpr hk
  induction m with
  | nil => simp [foldTrade, List.lookup, hb]
  | cons e rest ih =>
    rcases e with ⟨k2, a⟩
    by_cases hk2 : k2 = t.tokenId
    · subst hk2
      simp [foldTrade, List.lookup, hb]
    · cases hkk : (k == k2) <;> simp [foldTrade, List.lookup, hk2, hkk, ih]

/-- C4. Claim: Reconciliation folds each trade into its instrument's
accumulator (buys raise totalBought and totalCost, sells raise totalSold
and totalProceeds, other instruments untouched); an emitted position has
netSize = totalBought − totalSold, averagePrice = totalCost/totalBought
when totalBought > 0 and 0 otherwise, and realizedPnl = totalProceeds −
totalSold·averagePrice; and the trades [buy 10@0.40, buy 10@0.60,
sell 15@0.70] on one instrument yield netSize 5, averagePrice 0.50,
realizedPnl 3.00. -/
theorem positions_fold_correct :
    (∀ (m : AccMap) (t : Trade),
      (foldTrade m t).lookup t.tokenId
          = some (((m.lookup t.tokenId).getD (Acc.init t)).apply t) ∧
      ∀ k : String, k ≠ t.tokenId → (foldTrade m t).lookup k = m.lookup k) ∧
    (∀ (a : Acc) (tok mk : String) (price size : Option ℚ),
      a.apply { tokenId := tok, marketId := mk, side := .buy
                price := price, size := size }
          = { a with totalBought := a.totalBought + parseOr0 size,
                     totalCost := a.totalCost + parseOr0 price * parseOr0 size } ∧
      a.apply { tokenId := tok, marketId := mk, side := .sell
                price := price, size := size }
          = { a with totalSold := a.totalSold + parseOr0 size,
                     totalProceeds :=
                       a.totalProceeds + parseOr0 price * parseOr0 size }) ∧
    (∀ (k : String) (a : Acc),
      ¬ |a.totalBought - a.totalSold| < 1 / 10000 →
      accToPosition noMid false k a = some
        { market := a.market
          assetId := k
          size := a.totalBought - a.totalSold
          averagePrice :=
            if 0 < a.totalBought then a.totalCost / a.totalBought else 0
          realizedPnl := a.totalProceeds - a.totalSold *
            (if 0 < a.totalBought then a.totalCost / a.totalBought else 0)
          unrealizedPnl := 0 }) ∧
    reconcile noMid false [tradeBuy1, tradeBuy2, tradeSell1]
      = [{ market := "M", assetId := "T", size := 5, averagePrice := 1 / 2,
           realizedPnl := 3, unrealizedPnl := 0 }] := by
  refine ⟨fun m t => ⟨foldTrade_lookup_self m t,
      fun k hk => foldTrade_lookup_other m t k hk⟩,
    fun a tok mk price size => ⟨rfl, rfl⟩, ?_, ?_⟩
  · intro k a hflat
    rw [accToPosition]
    simp only [if_neg hflat, noMid, false_and, if_neg]
    simp
  · have hfold : foldTrades [tradeBuy1, tradeBuy2, tradeSell1]
        = [("T", { market := "M", assetId := "T", totalBought := 20,
                   totalSold := 15, totalCost := 10, totalProceeds := 21 / 2 })] := by
      norm_num [foldTrades, foldTrade, Acc.init, Acc.apply, parseOr0,
        tradeBuy1, tradeBuy2, tradeSell1]
    rw [reconcile, hfold]
    norm_num [emitPositions, accToPosition, abs_lt, noMid, List.filterMap]

/-- Closed instantiation of `positions_fold_correct` at a concrete
accumulator. -/
theorem positions_fold_correct_witness :
    accToPosition noMid false "T"
        { market := "M", assetId := "T", totalBought := 20,
          totalSold := 15, totalCost := 10, totalProceeds := 21 / 2 }
      = some { market := "M", assetId := "T", size := 20 - 15,
               averagePrice := if (0 : ℚ) < 20 then 10 / 20 else 0,
               realizedPnl := 21 / 2 - 15 * (if (0 : ℚ) < 20 then 10 / 20 else 0),
               unrealizedPnl := 0 } :=
  positions_fold_correct.2.2.1 "T"
    { market := "M", assetId := "T", totalBought := 20,
      totalSold := 15, totalCost := 10, totalProceeds := 21 / 2 }
    (by rw [abs_lt]; norm_num)

-- C5: the epsilon prune.

/-- A single buy of exactly 0.0001 shares at price 0.5. -/
def tradeTiny : Trade :=
  { tokenId := "T", marketId := "M", side := .buy
    price := some (1 / 2), size := some (1 / 10000) }

/-- The trade `buy 10 @ 0.5` on instrument `"T"`. -/
def tradeBuyHalf : Trade :=
  { tokenId := "T", marketId := "M", side := .buy
    price := some (1 / 2), size := some 10 }

/-- The trade `sell 10 @ 0.6` on instrument `"T"`. -/
def tradeSellSix : Trade :=
  { tokenId := "T", marketId := "M", side := .sell
    price := some (6 / 10), size := some 10 }

/-- C5 counterexample. The claim "a Position is emitted only when
|netSize| exceeds 1e-4" (strictly) is false: a single buy of exactly
0.0001 shares nets to |netSize| = 1e-4, which does not exceed 1e-4, yet
the skip test `|netSize| < 1e-4` fails and a Position is emitted. -/
theorem emit_epsilon_strict_counterexample :
    ¬ (∀ p ∈ reconcile noMid false [tradeTiny], 1 / 10000 < |p.size|) := by
  intro h
  have hmem : ({ market := "M", assetId := "T", size := 1 / 10000,
                 averagePrice := 1 / 2, realizedPnl := 0,
                 unrealizedPnl := 0 } : Position)
      ∈ reconcile noMid false [tradeTiny] := by
    have hfold : foldTrades [tradeTiny]
        = [("T", { market := "M", assetId := "T", totalBought := 1 / 10000,
                   totalSold := 0, totalCost := 1 / 20000, totalProceeds := 0 })] := by
      norm_num [foldTrades, foldTrade, Acc.init, Acc.apply, parseOr0, tradeTiny]
    rw [reconcile, hfold]
    norm_num [emitPositions, accToPosition, abs_lt, noMid, List.filterMap]
  have := h _ hmem
  simp only [abs_of_pos (show (0 : ℚ) < 1 / 10000 by norm_num)] at this
  exact absurd this (lt_irrefl _)

/-- C5 amended claim: A Position is emitted only when |netSize| ≥ 1e-4
(equivalently, an instrument is pruned exactly when |netSize| < 1e-4); in
particular no emitted Position has size 0, and trades that net to zero
(buy 10@0.5 then sell 10@0.6) produce no emitted Position. -/
theorem emit_epsilon_correct :
    (∀ (mid : MidOracle) (ip : Bool) (trades : List Trade) (p : Position),
      p ∈ reconcile mid ip trades → 1 / 10000 ≤ |p.size| ∧ p.size ≠ 0) ∧
    reconcile noMid false [tradeBuyHalf, tradeSellSix] = [] := by
  constructor
  · intro mid ip trades p hp
    rw [reconcile, emitPositions] at hp
    rcases List.mem_filterMap.mp hp with ⟨e, _, he⟩
    simp only [accToPosition] at he
    by_cases hflat : |e.2.totalBought - e.2.totalSold| < 1 / 10000
    · rw [if_pos hflat] at he
      cases he
    · rw [if_neg hflat] at he
      obtain rfl := Option.some_inj.mp he
      have hge : 1 / 10000 ≤ |e.2.totalBought - e.2.totalSold| := not_lt.mp hflat
      refine ⟨by simpa using hge, ?_⟩
      intro h0
      rw [show e.2.totalBought - e.2.totalSold = 0 from h0] at hge
      norm_num at hge
  · have hfold : foldTrades [tradeBuyHalf, tradeSellSix]
        = [("T", { market := "M", assetId := "T", totalBought := 10,
                   totalSold := 10, totalCost := 5, totalProceeds := 6 })] := by
      norm_num [foldTrades, foldTrade, Acc.init, Acc.apply, parseOr0,
        tradeBuyHalf, tradeSellSix]
    rw [reconcile, hfold]
    norm_num [emitPositions, accToPosition, abs_lt, noMid, List.filterMap]

/-- Closed instantiation of `emit_epsilon_correct` at the concrete
three-trade history. -/
theorem emit_epsilon_correct_witness :
    1 / 10000 ≤
        |({ market := "M", assetId := "T", size := 5, averagePrice := 1 / 2,
            realizedPnl := 3, unrealizedPnl := 0 } : Position).size| ∧
      ({ market := "M", assetId := "T", size := 5, averagePrice := 1 / 2,
         realizedPnl := 3, unrealizedPnl := 0 } : Position).size ≠ 0 :=
  emit_epsilon_correct.1 noMid false [tradeBuy1, tradeBuy2, tradeSell1] _
    (by
      have hfold : foldTrades [tradeBuy1, tradeBuy2, tradeSell1]
          = [("T", { market := "M", assetId := "T", totalBought := 20,
                     totalSold := 15, totalCost := 10, totalProceeds := 21 / 2 })] := by
        norm_num [foldTrades, foldTrade, Acc.init, Acc.apply, parseOr0,
          tradeBuy1, tradeBuy2, tradeSell1]
      rw [reconcile, hfold]
      norm_num [emitPositions, accToPosition, abs_lt, noMid, List.filterMap])

-- C7: unrealized PnL and per-instrument isolation of oracle failures.

theorem accToPosition_none_iff (mid : MidOracle) (ip : Bool) (k : String)
    (a : Acc) :
    accToPosition mid ip k a = none
      ↔ |a.totalBought - a.totalSold| < 1 / 10000 := by
  simp only [accToPosition]
  by_cases hflat : |a.totalBought - a.totalSold| < 1 / 10000 <;>
    simp [hflat]

theorem accToPosition_some (mid : MidOracle) (ip : Bool) (k : String) (a : Acc)
    (hflat : ¬ |a.totalBought - a.totalSold| < 1 / 10000) :
    accToPosition mid ip k a = some
      { market := a.market
        assetId := k
        size := a.totalBought - a.totalSold
        averagePrice :=
          if 0 < a.totalBought then a.totalCost / a.totalBought else 0
        realizedPnl := a.totalProceeds - a.totalSold *
          (if 0 < a.totalBought then a.totalCost / a.totalBought else 0)
        unrealizedPnl :=
          if ip ∧ 0 < a.totalBought - a.totalSold then
            match mid k with
            | some s => (parseOr0 s -
                (if 0 < a.totalBought then a.totalCost / a.totalBought else 0))
                  * (a.totalBought - a.totalSold)
            | none => 0
          else 0 } := by
  simp only [accToPosition]
  rw [if_neg hflat]

theorem emitPositions_realized_indep (mid mid2 : MidOracle) (ip ip2 : Bool)
    (m : AccMap) :
    (emitPositions mid ip m).map (fun p => (p.assetId, p.realizedPnl))
      = (emitPositions mid2 ip2 m).map (fun p => (p.assetId, p.realizedPnl)) := by
  induction m with
  | nil => rfl
  | cons e rest ih =>
    rcases e with ⟨k, a⟩
    by_cases hflat : |a.totalBought - a.totalSold| < 1 / 10000
    · have h1 := (accToPosition_none_iff mid ip k a).mpr hflat
      have h2 := (accToPosition_none_iff mid2 ip2 k a).mpr hflat
      simp only [emitPositions, List.filterMap_cons] at *
      rw [h1, h2]
      exact ih
    · have h1 := accToPosition_some mid ip k a hflat
      have h2 := accToPosition_some mid2 ip2 k a hflat
      simp only [emitPositions, List.filterMap_cons] at *
      rw [h1, h2]
      simpa using ih

/-- C7. Claim: unrealizedPnl is computed as (currentPrice − averagePrice) ·
netSize only when prices were requested and the net position is long; it
is 0 when prices were not requested, when the position is not long, or
when the midpoint call for that instrument fails; and neither whether a
position is emitted nor its realizedPnl depends on the oracle at all, so
one oracle failure leaves every other instrument's (and even that
instrument's) realized PnL intact. -/
theorem unrealized_pnl_correct :
    (∀ (mid : MidOracle) (ip : Bool) (k : String) (a : Acc) (p : Position),
      accToPosition mid ip k a = some p →
      (¬ (ip = true ∧ 0 < a.totalBought - a.totalSold) → p.unrealizedPnl = 0) ∧
      (mid k = none → p.unrealizedPnl = 0) ∧
      (∀ s, ip = true → 0 < a.totalBought - a.totalSold → mid k = some s →
        p.unrealizedPnl = (parseOr0 s - p.averagePrice) * p.size)) ∧
    (∀ (mid mid2 : MidOracle) (ip ip2 : Bool) (m : AccMap),
      (emitPositions mid ip m).map (fun p => (p.assetId, p.realizedPnl))
        = (emitPositions mid2 ip2 m).map (fun p => (p.assetId, p.realizedPnl))) := by
  constructor
  · intro mid ip k a p hp
    by_cases hflat : |a.totalBought - a.totalSold| < 1 / 10000
    · rw [(accToPosition_none_iff mid ip k a).mpr hflat] at hp
      cases hp
    · rw [accToPosition_some mid ip k a hflat] at hp
      obtain rfl := Option.some_inj.mp hp
      refine ⟨?_, ?_, ?_⟩
      · intro hnot
        simp only []
        rw [if_neg hnot]
      · intro hmidnone
        by_cases hcond : ip = true ∧ 0 < a.totalBought - a.totalSold
        · simp only []
          rw [if_pos hcond, hmidnone]
        · simp only []
          rw [if_neg hcond]
      · intro s hip hpos hmid
        simp only []
        rw [if_pos ⟨hip, hpos⟩, hmid]
  · exact fun mid mid2 ip ip2 m => emitPositions_realized_indep mid mid2 ip ip2 m

/-- Closed instantiation of `unrealized_pnl_correct`: the oracle call for
`"T"` fails, yet the position is emitted with unrealizedPnl 0. -/
theorem unrealized_pnl_correct_witness :
    ({ market := "M", assetId := "T", size := 5, averagePrice := 1 / 2,
       realizedPnl := 3, unrealizedPnl := 0 } : Position).unrealizedPnl = 0 :=
  (unrealized_pnl_correct.1 noMid true "T"
      { market := "M", assetId := "T", totalBought := 20, totalSold := 15,
        totalCost := 10, totalProceeds := 21 / 2 }
      { market := "M", assetId := "T", size := 5, averagePrice := 1 / 2,
        realizedPnl := 3, unrealizedPnl := 0 }
      (by
        rw [accToPosition_some noMid true "T"
          { market := "M", assetId := "T", totalBought := 20, totalSold := 15,
            totalCost := 10, totalProceeds := 21 / 2 }
          (by rw [abs_lt]; norm_num)]
        norm_num [noMid])).2.1 rfl

-- C8: malformed numeric fields degrade to zero contribution.

theorem apply_price_none (a : Acc) (tok mk : String) (side : OrderSide)
    (size : Option ℚ) :
    a.apply { tokenId := tok, marketId := mk, side := side
              price := none, size := size }
      = a.apply { tokenId := tok, marketId := mk, side := side
                  price := some 0, size := size } := by
  cases side <;> rfl

theorem apply_size_none (a : Acc) (tok mk : String) (side : OrderSide)
    (price : Option ℚ) :
    a.apply { tokenId := tok, marketId := mk, side := side
              price := price, size := none }
      = a.apply { tokenId := tok, marketId := mk, side := side
                  price := price, size := some 0 } := by
  cases side <;> rfl

theorem foldTrade_congr (t1 t2 : Trade) (hid : t1.tokenId = t2.tokenId)
    (hmk : t1.marketId = t2.marketId)
    (happ : ∀ a : Acc, a.apply t1 = a.apply t2) (m : AccMap) :
    foldTrade m t1 = foldTrade m t2 := by
  induction m with
  | nil =>
    simp only [foldTrade, Acc.init, hid, hmk, happ]
  | cons e rest ih =>
    rcases e with ⟨k, a⟩
    simp only [foldTrade, hid, happ, ih]

/-- C8. Claim: An unparsable price or size field contributes zero to the
affected accumulator sums — the trade is folded exactly as if the field
read 0 — and reconciliation of the whole batch proceeds unchanged (the
reconciler is a total function, so a single bad record never aborts the
batch nor affects how the surrounding trades are accounted). -/
theorem malformed_trade_degrades :
    (∀ (a : Acc) (tok mk : String) (side : OrderSide) (size : Option ℚ),
      a.apply { tokenId := tok, marketId := mk, side := side
                price := none, size := size }
        = a.apply { tokenId := tok, marketId := mk, side := side
                    price := some 0, size := size }) ∧
    (∀ (a : Acc) (tok mk : String) (side : OrderSide) (price : Option ℚ),
      a.apply { tokenId := tok, marketId := mk, side := side
                price := price, size := none }
        = a.apply { tokenId := tok, marketId := mk, side := side
                    price := price, size := some 0 }) ∧
    (∀ (mid : MidOracle) (ip : Bool) (pre post : List Trade)
        (tok mk : String) (side : OrderSide) (size : Option ℚ),
      reconcile mid ip (pre ++ { tokenId := tok, marketId := mk, side := side
                                 price := none, size := size } :: post)
        = reconcile mid ip (pre ++ { tokenId := tok, marketId := mk, side := side
                                     price := some 0, size := size } :: post)) ∧
    (∀ (mid : MidOracle) (ip : Bool) (pre post : List Trade)
        (tok mk : String) (side : OrderSide) (price : Option ℚ),
      reconcile mid ip (pre ++ { tokenId := tok, marketId := mk, side := side
                                 price := price, size := none } :: post)
        = reconcile mid ip (pre ++ { tokenId := tok, marketId := mk, side := side
                                     price := price, size := some 0 } :: post)) := by
  refine ⟨fun a tok mk side size => apply_price_none a tok mk side size,
    fun a tok mk side price => apply_size_none a tok mk side price, ?_, ?_⟩
  · intro mid ip pre post tok mk side size
    rw [reconcile, reconcile, foldTrades, foldTrades,
      List.foldl_append, List.foldl_append, List.foldl_cons, List.foldl_cons,
      foldTrade_congr
        { tokenId := tok, marketId := mk, side := side
          price := none, size := size }
        { tokenId := tok, marketId := mk, side := side
          price := some 0, size := size }
        rfl rfl (fun a => apply_price_none a tok mk side size)]
  · intro mid ip pre post tok mk side price
    rw [reconcile, reconcile, foldTrades, foldTrades,
      List.foldl_append, List.foldl_append, List.foldl_cons, List.foldl_cons,
      foldTrade_congr
        { tokenId := tok, marketId := mk, side := side
          price := price, size := none }
        { tokenId := tok, marketId := mk, side := side
          price := price, size := some 0 }
        rfl rfl (fun a => apply_size_none a tok mk side price)]

-- C9: credential guards fail fast.

/-- A concrete client without API credentials. -/
def noCredClient : ClobClient :=
  { hasCredentials := false
    http := fun _ => PageResult.httpFail
    mid := noMid
    collateral := .error (.apiError "unused")
    conditional := fun _ => .error (.apiError "unused")
    cancelResult := .ok true
    scoringResult := .ok []
    apiKeysResult := .ok []
    revokeResult := .ok true }

/-- C9. Claim: Every credential-requiring operation — position queries, trade
history, balances, order cancellation, order scoring, listing and revoking
API keys — checks credentials first: on a client without credentials it
returns `AuthError` with an empty network-call trace, so no request is
issued and no other work happens. -/
theorem auth_guard_first (c : ClobClient) (hc : c.hasCredentials = false) :
    (∀ (maxPages : Option Nat) (ip : Bool),
      get_positions c maxPages ip
        = (.error (.authError "API credentials required for position queries"),
            [])) ∧
    (∀ maxPages : Option Nat,
      get_trade_history c maxPages
        = (.error (.authError "API credentials required for trade history"),
            [])) ∧
    (∀ (tids : Option (List String)) (ic icc : Bool),
      get_balances c tids ic icc
        = (.error (.authError "API credentials required for balance queries"),
            [])) ∧
    (∀ oid : String,
      cancel_order c oid
        = (.error (.authError "API credentials required to cancel orders"),
            [])) ∧
    check_order_scoring c
      = (.error (.authError "API credentials required for order scoring check"),
          []) ∧
    get_all_api_keys c
      = (.error (.authError "API credentials required to list API keys"), []) ∧
    (∀ kid : String,
      revoke_api_key c kid
        = (.error (.authError "API credentials required to revoke API keys"),
            [])) := by
  refine ⟨?_, ?_, ?_, ?_, ?_, ?_, ?_⟩ <;>
    simp [get_positions, get_trade_history, get_balances, cancel_order,
      check_order_scoring, get_all_api_keys, revoke_api_key, hc]

/-- Closed instantiation of `auth_guard_first` at a concrete
credential-less client. -/
theorem auth_guard_first_witness :
    (∀ (maxPages : Option Nat) (ip : Bool),
      get_positions noCredClient maxPages ip
        = (.error (.authError "API credentials required for position queries"),
            [])) ∧
    (∀ maxPages : Option Nat,
      get_trade_history noCredClient maxPages
        = (.error (.authError "API credentials required for trade history"),
            [])) ∧
    (∀ (tids : Option (List String)) (ic icc : Bool),
      get_balances noCredClient tids ic icc
        = (.error (.authError "API credentials required for balance queries"),
            [])) ∧
    (∀ oid : String,
      cancel_order noCredClient oid
        = (.error (.authError "API credentials required to cancel orders"),
            [])) ∧
    check_order_scoring noCredClient
      = (.error (.authError "API credentials required for order scoring check"),
          []) ∧
    get_all_api_keys noCredClient
      = (.error (.authError "API credentials required to list API keys"), []) ∧
    (∀ kid : String,
      revoke_api_key noCredClient kid
        = (.error (.authError "API credentials required to revoke API keys"),
            [])) :=
  auth_guard_first noCredClient rfl

-- C10: pagination of the trade fetch.

/-- A backend whose every page succeeds with a non-terminal cursor. -/
def pagesOkCursor : Nat → PageResult :=
  fun _ => PageResult.ok { data := [], nextCursor := "c" }

/-- A backend whose every request returns a non-success HTTP status. -/
def pagesFail : Nat → PageResult :=
  fun _ => PageResult.httpFail

theorem get_trades_loop_count_le (http : Nat → PageResult) :
    ∀ (fuel idx : Nat) (acc : TradesResponse),
      (get_trades_loop http idx acc fuel).2 ≤ fuel := by
  intro fuel
  induction fuel with
  | zero =>
    intro idx acc
    simp [get_trades_loop]
  | succ n ih =>
    intro idx acc
    rw [get_trades_loop]
    by_cases hc : acc.nextCursor = "" ∨ acc.nextCursor = END_CURSOR
    · rw [if_pos hc]
      exact Nat.zero_le _
    · rw [if_neg hc]
      cases hhttp : http idx
      · exact Nat.succ_le_succ (Nat.zero_le n)
      · exact Nat.succ_le_succ (Nat.zero_le n)
      · exact Nat.succ_le_succ (Nat.zero_le n)
      · exact Nat.succ_le_succ (ih _ _)

/-- C10 counterexample. The claim "at most `max_pages` page requests
are issued" is false at `max_pages = some 0`: the first request is
unconditional, so one request is issued even though the cap is 0. -/
theorem get_trades_max_pages_counterexample :
    (get_trades pagesOkCursor (some 0)).2 = 1 ∧
    ¬ (get_trades pagesOkCursor (some 0)).2 ≤ 0 := by
  exact ⟨rfl, by decide⟩

/-- C10 amended claim: `get_trades` with `max_pages = m` (defaulting to 1
when unspecified) issues at most `max m 1` page requests (the first
request is unconditional, the loop adds at most `m − 1` more); the loop
issues no request once the accumulated cursor is empty or the `"LTE="`
sentinel, returning what was gathered; and a non-success HTTP status on a
later page stops pagination after that one request, returning the trades
accumulated so far without error. -/
theorem get_trades_pagination (http : Nat → PageResult) (maxPages : Option Nat) :
    (get_trades http maxPages).2 ≤ max (maxPages.getD 1) 1 ∧
    (∀ (idx fuel : Nat) (acc : TradesResponse),
      acc.nextCursor = "" ∨ acc.nextCursor = END_CURSOR →
      get_trades_loop http idx acc fuel = (.ok acc, 0)) ∧
    (∀ (idx fuel : Nat) (acc : TradesResponse),
      ¬ (acc.nextCursor = "" ∨ acc.nextCursor = END_CURSOR) →
      http idx = PageResult.httpFail →
      get_trades_loop http idx acc (fuel + 1) = (.ok acc, 1)) := by
  refine ⟨?_, ?_, ?_⟩
  · rw [get_trades]
    cases hhttp : http 0
    · simp
    · simp
    · simp
    · have hle := get_trades_loop_count_le http (maxPages.getD 1 - 1) 1
        (by assumption)
      simp only []
      omega
  · intro idx fuel acc hc
    cases fuel with
    | zero => rw [get_trades_loop]
    | succ n =>
      rw [get_trades_loop, if_pos hc]
  · intro idx fuel acc hc hf
    rw [get_trades_loop, if_neg hc, hf]

/-- Closed instantiation of `get_trades_pagination` at concrete backends,
page caps and cursors. -/
theorem get_trades_pagination_witness :
    (get_trades pagesOkCursor (some 3)).2 ≤ max ((some 3 : Option Nat).getD 1) 1 ∧
    get_trades_loop pagesOkCursor 1 { data := [], nextCursor := "LTE=" } 5
      = (.ok { data := [], nextCursor := "LTE=" }, 0) ∧
    get_trades_loop pagesFail 1 { data := [], nextCursor := "c" } (4 + 1)
      = (.ok { data := [], nextCursor := "c" }, 1) :=
  ⟨(get_trades_pagination pagesOkCursor (some 3)).1,
    (get_trades_pagination pagesOkCursor (some 3)).2.1 1 5
      { data := [], nextCursor := "LTE=" } (Or.inr rfl),
    (get_trades_pagination pagesFail (some 1)).2.2 1 4
      { data := [], nextCursor := "c" } (by simp [END_CURSOR]) rfl⟩

end Polymarket
